import Mathlib

set_option maxHeartbeats 2000000

/-!
Verification development for the dashboard analytics core (`dashboard.py`).

The embedding models:
* pandas DataFrames as `Table` (a column-name list plus rows of `Cell`s);
* missing values (`NaN` / `NaT` / `None`) uniformly as `Cell.null` resp. `Option.none`;
* float values as rationals, timestamps as integer seconds since the epoch;
* `load_sensor_data` / `get_data_from_sheet` against an explicit `World`
  describing the filesystem and the remote-sheet state;
* the `/dashboard` route's aggregation loop, including the fact that the
  alert-log and system-status blocks are dedented out of the booth loop and
  therefore run once, on variables left over from the loops.
-/

namespace Dashboard

/-- Python `int()` truncation toward zero, on a rational standing for a float. -/
def pyInt (q : ℚ) : ℤ := if 0 ≤ q then ⌊q⌋ else ⌈q⌉

/-- One DataFrame cell: a raw string, a float (as `ℚ`), a timestamp
(seconds since 1970-01-01 00:00:00), or the missing sentinel
(`NaN` / `NaT` / `None`). -/
inductive Cell
  | str (s : String)
  | num (q : ℚ)
  | time (t : ℤ)
  | null
deriving DecidableEq

/-- Decimal digit test. -/
def isDigitChar (c : Char) : Bool := decide ('0' ≤ c) && decide (c ≤ '9')

/-- Value of a digit string read left to right. -/
def digitsToNat (ds : List Char) : ℕ := ds.foldl (fun n c => n * 10 + (c.toNat - 48)) 0

/-- Strip leading and trailing spaces, as `str.strip()` / float parsing do. -/
def trimChars (cs : List Char) : List Char :=
  ((cs.dropWhile (fun c => c = ' ')).reverse.dropWhile (fun c => c = ' ')).reverse

/-- Split a character list on a separator character; mirrors
`String.splitOn` with a one-character separator. -/
def splitOnChar (sep : Char) : List Char → List (List Char)
  | [] => [[]]
  | c :: rest =>
    let r := splitOnChar sep rest
    if c = sep then [] :: r
    else
      match r with
      | [] => [[c]]
      | g :: gs => (c :: g) :: gs

/-- Numeric parsing of a string cell, as `pd.to_numeric` / `float()` does for
plain decimal literals: optional sign, integer part, optional fraction.
The empty string and any other unparsable text yield `none`. -/
def parseNumStr (s0 : String) : Option ℚ :=
  let cs := trimChars s0.data
  let signAndRest : ℚ × List Char :=
    match cs with
    | '-' :: rest => (-1, rest)
    | '+' :: rest => (1, rest)
    | _ => (1, cs)
  let sign := signAndRest.1
  let body := signAndRest.2
  let intPart := body.takeWhile isDigitChar
  let rest := body.dropWhile isDigitChar
  match rest with
  | [] => if intPart.isEmpty then none else some (sign * digitsToNat intPart)
  | '.' :: frac =>
    if frac.all isDigitChar && !(intPart.isEmpty && frac.isEmpty) then
      some (sign * ((digitsToNat intPart : ℚ) + (digitsToNat frac : ℚ) / (10 : ℚ) ^ frac.length))
    else none
  | _ => none

/-- Days since 1970-01-01 of a civil date (proleptic Gregorian). -/
def daysFromCivil (y m d : ℤ) : ℤ :=
  let y1 := y - (if m ≤ 2 then 1 else 0)
  let era := y1.fdiv 400
  let yoe := y1 - era * 400
  let mp := m + (if 2 < m then -3 else 9)
  let doy := (153 * mp + 2).tdiv 5 + d - 1
  let doe := yoe * 365 + yoe.tdiv 4 - yoe.tdiv 100 + doy
  era * 146097 + doe - 719468

/-- Civil date (year, month, day) of a day count since 1970-01-01. -/
def civilFromDays (z0 : ℤ) : ℤ × ℤ × ℤ :=
  let z := z0 + 719468
  let era := z.fdiv 146097
  let doe := z - era * 146097
  let yoe := (doe - doe.tdiv 1460 + doe.tdiv 36524 - doe.tdiv 146096).tdiv 365
  let y := yoe + era * 400
  let doy := doe - (365 * yoe + yoe.tdiv 4 - yoe.tdiv 100)
  let mp := (5 * doy + 2).tdiv 153
  let d := doy - (153 * mp + 2).tdiv 5 + 1
  let m := mp + (if mp < 10 then 3 else -9)
  (y + (if m ≤ 2 then 1 else 0), m, d)

/-- Parse a decimal natural number; `none` on empty or non-digit text. -/
def parseNatChars (cs : List Char) : Option ℕ :=
  if !cs.isEmpty && cs.all isDigitChar then some (digitsToNat cs) else none

/-- Timestamp parsing of a string cell, as `pd.to_datetime` does for the
`YYYY-MM-DD [HH:MM[:SS]]` layouts used by the sensor sources; any other
text yields `none` (which the coercion turns into the missing sentinel). -/
def parseTimeStr (s : String) : Option ℤ :=
  let parts := splitOnChar ' ' (trimChars s.data)
  let dpart := match parts with
    | [d] => d
    | [d, _] => d
    | _ => []
  let tpart := match parts with
    | [_] => '0' :: ':' :: '0' :: ':' :: ['0']
    | [_, t] => t
    | _ => []
  match splitOnChar '-' dpart with
  | [ys, ms, ds] =>
    let hms := splitOnChar ':' tpart
    let hs := match hms with
      | [h, _] => h
      | [h, _, _] => h
      | _ => []
    let mis := match hms with
      | [_, mi] => mi
      | [_, mi, _] => mi
      | _ => []
    let ses := match hms with
      | [_, _] => ['0']
      | [_, _, se] => se
      | _ => []
    match parseNatChars ys, parseNatChars ms, parseNatChars ds,
          parseNatChars hs, parseNatChars mis, parseNatChars ses with
    | some y, some mo, some da, some h, some mi, some se =>
      if 1 ≤ mo && mo ≤ 12 && 1 ≤ da && da ≤ 31 && h < 24 && mi < 60 && se < 60 then
        some (daysFromCivil y mo da * 86400 + h * 3600 + mi * 60 + se)
      else none
    | _, _, _, _, _, _ => none
  | _ => none

/-- Left-pad a natural number to two digits, as `strftime` zero-padding does. -/
def pad2 (n : ℕ) : String := if n < 10 then "0" ++ toString n else toString n

/-- Left-pad a natural number to at least four digits. -/
def pad4 (n : ℕ) : String :=
  if n < 10 then "000" ++ toString n
  else if n < 100 then "00" ++ toString n
  else if n < 1000 then "0" ++ toString n
  else toString n

/-- Render a signed year to at least four digits (`%Y`). -/
def padYear (y : ℤ) : String :=
  if y < 0 then "-" ++ pad4 y.natAbs else pad4 y.toNat

/-- Rendering of `strftime('%Y-%m-%d %H:%M')` on an epoch-seconds timestamp. -/
def formatTimestamp (t : ℤ) : String :=
  let days := t.fdiv 86400
  let secs := (t - days * 86400).toNat
  let ymd := civilFromDays days
  padYear ymd.1 ++ "-" ++ pad2 ymd.2.1.toNat ++ "-" ++ pad2 ymd.2.2.toNat ++ " " ++
    pad2 (secs / 3600) ++ ":" ++ pad2 ((secs % 3600) / 60)

/-- A pandas DataFrame: a list of column names and the rows, each row holding
the cells in column order. -/
structure Table where
  cols : List String
  rows : List (List Cell)
deriving DecidableEq

/-- The five required sensor columns (`required_cols` in `load_sensor_data`). -/
def requiredCols : List String := ["time", "temp_c", "humidity_pct", "co2_ppm", "pir_state"]

/-- The three numeric sensor columns (`numeric_cols` in `load_sensor_data`). -/
def numericCols : List String := ["temp_c", "humidity_pct", "co2_ppm"]

/-- Cell of `row` in the column named `c` (missing column reads as null,
matching the fact that pandas column access is by name). -/
def getCellIn (cols : List String) (row : List Cell) (c : String) : Cell :=
  row.getD (cols.indexOf c) Cell.null

/-- Cell of `row` in column `c` of table `t`. -/
def Table.cell (t : Table) (row : List Cell) (c : String) : Cell :=
  getCellIn t.cols row c

/-- Rewrite one row under a per-column transform of column `c`
(`df[c] = f(df[c])`): every position whose column name is `c` is mapped
through `f`, all others are kept. -/
def applyAt (cols : List String) (c : String) (f : Cell → Cell) (row : List Cell) : List Cell :=
  (List.range cols.length).map
    (fun i => if cols.getD i "" = c then f (row.getD i Cell.null) else row.getD i Cell.null)

/-- Column update `df[c] = f(df[c])` over the whole table. -/
def mapCol (t : Table) (c : String) (f : Cell → Cell) : Table :=
  { cols := t.cols, rows := t.rows.map (applyAt t.cols c f) }

/-- One iteration of the schema-completion loop: `df[col] = None` when the
column is missing. -/
def addMissingCol (acc : Table) (c : String) : Table :=
  if c ∈ acc.cols then acc
  else { cols := acc.cols ++ [c], rows := acc.rows.map (fun r => r ++ [Cell.null]) }

/-- Step 1 of `load_sensor_data`: for each required column missing from the
frame, add it filled with the missing sentinel (`df[col] = None`). -/
def ensureCols (t : Table) : Table :=
  requiredCols.foldl addMissingCol t

/-- Model of `pd.to_numeric(x, errors='coerce')` on one cell: numbers pass through,
strings are parsed, anything unparsable (and the missing sentinel) becomes
missing.  Datetime cells never occur in numeric columns of the modelled
sources, so their branch is the missing sentinel as well. -/
def coerceNumCell : Cell → Cell
  | Cell.num q => Cell.num q
  | Cell.str s =>
    match parseNumStr s with
    | some q => Cell.num q
    | none => Cell.null
  | Cell.time _ => Cell.null
  | Cell.null => Cell.null

/-- Model of `pd.to_datetime(x, errors='coerce')` on one cell: timestamps pass
through, strings are parsed, anything unparsable becomes missing (`NaT`).
Plain numbers never occur in the time column of the modelled sources, so
their branch is the missing sentinel as well. -/
def coerceTimeCell : Cell → Cell
  | Cell.time t => Cell.time t
  | Cell.str s =>
    match parseTimeStr s with
    | some t => Cell.time t
    | none => Cell.null
  | Cell.num _ => Cell.null
  | Cell.null => Cell.null

/-- Step 2 of `load_sensor_data`: numeric coercion of the three sensor
columns, in the order of the source loop. -/
def coerceNumerics (t : Table) : Table :=
  numericCols.foldl (fun acc c => mapCol acc c coerceNumCell) t

/-- Step 3 of `load_sensor_data`: time coercion, guarded exactly as in the
source by `if 'time' in df.columns`. -/
def coerceTime (t : Table) : Table :=
  if "time" ∈ t.cols then mapCol t "time" coerceTimeCell else t

/-- Time value of a cell, `none` when it is not a parsed timestamp. -/
def timeKeyCell : Cell → Option ℤ
  | Cell.time t => some t
  | _ => none

/-- Sort key of a row: its time cell as an optional timestamp. -/
def timeKey (cols : List String) (row : List Cell) : Option ℤ :=
  timeKeyCell (getCellIn cols row "time")

/-- Comparison used by `sort_values(by='time')`: present timestamps in
numeric order, missing timestamps (`NaT`) after every present one
(pandas `na_position='last'`). -/
def optLe : Option ℤ → Option ℤ → Bool
  | some a, some b => a ≤ b
  | some _, none => true
  | none, some _ => false
  | none, none => true

/-- Row ordering for the time sort. -/
def rowLe (cols : List String) (r1 r2 : List Cell) : Bool :=
  optLe (timeKey cols r1) (timeKey cols r2)

/-- Step 4 of `load_sensor_data`: `df.sort_values(by='time')`.  The source
uses the pandas default `kind='quicksort'`, which is documented as unstable,
so the program guarantees only a time-sorted permutation of the rows; this
model fixes one deterministic tie order purely for executability, and no
claim's theorem relies on the tie order. -/
def sortByTime (t : Table) : Table :=
  { cols := t.cols,
    rows := List.insertionSort (fun a b => rowLe t.cols a b = true) t.rows }

/-- The normalization core of `load_sensor_data` (its steps 1 to 3 plus the
final time sort), applied to a fetched non-empty frame. -/
def normalizeCore (t : Table) : Table :=
  sortByTime (coerceTime (coerceNumerics (ensureCols t)))

/-- The environment a fetch runs against: whether the Google-Sheets
worksheet handle was initialized, the outcome of `get_all_records` (a table,
or an exception), and the local CSV store mapping a path to `none` (file
absent), a parse failure, or a parsed table. -/
structure World where
  sheetAvailable : Bool
  sheetRecords : Except String Table
  localFiles : String → Option (Except String Table)

/-- Python `booth_name.replace(' ', '')`: every space character is removed. -/
def stripSpaces (s : String) : String := String.mk (s.data.filter (fun c => c ≠ ' '))

/-- The fetch `get_data_from_sheet`: `None` when the worksheet is uninitialized or
`get_all_records` raises; otherwise time-coerce and sort.  When the fetched
frame has no `time` column, `sort_values(by='time')` raises a `KeyError`,
which the surrounding `except` turns into `None` as well. -/
def get_data_from_sheet (w : World) : Option Table :=
  if w.sheetAvailable then
    match w.sheetRecords with
    | Except.error _ => none
    | Except.ok df =>
      if "time" ∈ df.cols then some (sortByTime (coerceTime df)) else none
  else none

/-- The fetch `load_sensor_data(loc_name, booth_name)`: route the distinguished
(Adelaide, BoothA) pair (after space-stripping the booth name) to the
remote sheet, every other pair to the local CSV keyed by the space-stripped
`{loc}_{booth}` name; absent files, read errors and remote failures all
yield `None`; a present non-empty frame is normalized. -/
def load_sensor_data (w : World) (loc_name booth_name : String) : Option Table :=
  let clean_booth_name := stripSpaces booth_name
  let df : Option Table :=
    if loc_name = "Adelaide" ∧ clean_booth_name = "BoothA" then
      get_data_from_sheet w
    else
      let filepath := "data/" ++ stripSpaces loc_name ++ "_" ++ clean_booth_name ++ ".csv"
      match w.localFiles filepath with
      | none => none
      | some (Except.error _) => none
      | some (Except.ok t) => some t
  match df with
  | some t => if t.rows.isEmpty then none else some (normalizeCore t)
  | none => none

/-- A normalized reading, the typed view of one row of a normalized frame:
each field is present or the missing sentinel (`NaN` / `NaT`). -/
structure Reading where
  time : Option ℤ
  temp_c : Option ℚ
  humidity_pct : Option ℚ
  co2_ppm : Option ℚ
  pir_state : Option String
deriving DecidableEq

/-- An entry of the `active_alerts` log, lines 169-173 of the source:
either `High CO₂ in {loc}, {booth}: {int(co2)} ppm` or
`High Temp in {loc}, {booth}: {temp}°C`. -/
inductive AlertEvent
  | highCO2 (location booth : String) (ppm : ℤ)
  | highTemp (location booth : String) (temp : ℚ)
deriving DecidableEq

/-- The alert-log block (lines 169-173): a HighCO2 entry when `co2_ppm` is a
number greater than 1000 (the Python guard `co2_val is not None` always holds
for a float cell, and `NaN > 1000` is false, so missing never fires), then a
HighTemp entry when `temp_c` is a number greater than 25. -/
def alertEventsFor (loc booth : String) (r : Reading) : List AlertEvent :=
  (match r.co2_ppm with
   | some v => if 1000 < v then [AlertEvent.highCO2 loc booth (pyInt v)] else []
   | none => []) ++
  (match r.temp_c with
   | some v => if 25 < v then [AlertEvent.highTemp loc booth v] else []
   | none => [])

/-- The alert condition of the per-location count loop (lines 162-164):
`(co2_val is not None and co2_val > 1000) or (temp_val is not None and
temp_val > 25)`, with missing modelled as never firing since `NaN`
comparisons are false. -/
def alertCond (r : Reading) : Bool :=
  (match r.co2_ppm with
   | some v => decide (1000 < v)
   | none => false) ||
  (match r.temp_c with
   | some v => decide (25 < v)
   | none => false)

/-- One entry of the `system_status` panel. -/
structure StatusEntry where
  location : String
  booth : String
  last_seen : String
  status : String
deriving DecidableEq

/-- The system-status block (lines 176-184): with no reading or a missing
(`NaT`, falsy) time, `{last_seen: Never, status: Offline}`; otherwise
Offline exactly when `datetime.now() - last_seen > timedelta(hours=1)`,
with the time rendered by `strftime('%Y-%m-%d %H:%M')`. -/
def systemStatusEntry (loc booth : String) (latest : Option Reading) (now : ℤ) : StatusEntry :=
  match latest.bind Reading.time with
  | none => ⟨loc, booth, "Never", "Offline"⟩
  | some t => ⟨loc, booth, formatTimestamp t, if 3600 < now - t then "Offline" else "Online"⟩

/-- The loop-carried variables of the `/dashboard` route: the Python locals
`latest`, `loc` and `booth_name` (each `none` while still unassigned) and
the `location_summaries` dict. -/
structure LoopState where
  latest : Option Reading
  lastLoc : Option String
  lastBooth : Option String
  summaries : List (String × ℕ)
deriving DecidableEq

/-- Body of the inner booth loop (lines 158-165): `booth_name` is bound by
the loop header; when the fetch yields a non-empty frame, `latest` is
rebound to its last row and the location's `alert_count` is bumped when the
alert condition fires. -/
def boothStep (fetch : String → String → Option (List Reading)) (loc : String)
    (acc : LoopState × ℕ) (booth : String) : LoopState × ℕ :=
  let st := { acc.1 with lastBooth := some booth }
  match fetch loc booth with
  | none => (st, acc.2)
  | some seq =>
    match seq.getLast? with
    | none => (st, acc.2)
    | some r => ({ st with latest := some r }, if alertCond r then acc.2 + 1 else acc.2)

/-- Body of the outer location loop (lines 155-166): `loc` is bound by the
loop header, `alert_count` restarts at 0, the booth loop runs, and the
count is recorded in `location_summaries`. -/
def locStep (fetch : String → String → Option (List Reading))
    (booths : String → List String) (st : LoopState) (loc : String) : LoopState :=
  let stepped := (booths loc).foldl (boothStep fetch loc) ({ st with lastLoc := some loc }, 0)
  { stepped.1 with summaries := stepped.1.summaries ++ [(loc, stepped.2)] }

/-- The data produced by the `/dashboard` route for the presentation layer. -/
structure DashResult where
  location_summaries : List (String × ℕ)
  active_alerts : List AlertEvent
  system_status : List StatusEntry
deriving DecidableEq

/-- The `/dashboard` aggregation (lines 155-184): the location/booth loops
run first; the alert-log block and the system-status block sit at function
level (dedented out of both loops), so they run exactly once afterwards, on
whatever `latest`, `loc` and `booth_name` were left holding.  When `latest`
was never assigned (no booth produced data) line 169 raises a `NameError`. -/
def dashboardEval (locations : List String) (booths : String → List String)
    (fetch : String → String → Option (List Reading)) (now : ℤ) :
    Except String DashResult :=
  let st := locations.foldl (locStep fetch booths) ⟨none, none, none, []⟩
  match st.latest, st.lastLoc, st.lastBooth with
  | some r, some loc, some booth =>
    Except.ok
      { location_summaries := st.summaries
        active_alerts := alertEventsFor loc booth r
        system_status := [systemStatusEntry loc booth (some r) now] }
  | _, _, _ => Except.error "NameError"

/-- NaN-propagating subtraction on float cells: missing on either side
(`NaN` in pandas) makes the difference missing (`NaN`). -/
def subFloat : Option ℚ → Option ℚ → Option ℚ
  | some a, some b => some (a - b)
  | _, _ => none

/-- Model of `Series.mean()` with the default `skipna=True`: the mean of the present
values, `NaN` when every value is missing. -/
def meanFloat (xs : List (Option ℚ)) : Option ℚ :=
  let vs := xs.filterMap id
  if vs.isEmpty then none else some (vs.sum / (vs.length : ℚ))

/-- A well-formed DataFrame: every row has exactly one cell per column. -/
def Aligned (t : Table) : Prop :=
  ∀ row ∈ t.rows, row.length = t.cols.length

/-- The timestamps of the rows whose time is present, in row order. -/
def presentTimes (t : Table) : List ℤ :=
  t.rows.filterMap (timeKey t.cols)

/-- The historical-context block of the `/booth` route (lines 222-233):
`reading` is the last row, `yesterday_data` keeps the rows whose time is
present and before `now - 1 day` (a `NaT` comparison is false), and when it
is non-empty both deltas are recorded — the Python guard
`reading[c] is not None` always holds because a missing float is `NaN`,
not `None`, so a missing side simply propagates into a `NaN` delta. -/
def historicalContext (seq : List Reading) (now : ℤ) : List (String × Option ℚ) :=
  match seq.getLast? with
  | none => []
  | some reading =>
    let yesterday := seq.filter
      (fun r =>
        match r.time with
        | some t => decide (t < now - 86400)
        | none => false)
    if yesterday.isEmpty then []
    else
      [("temp_change", subFloat reading.temp_c (meanFloat (yesterday.map Reading.temp_c))),
       ("hum_change",
        subFloat reading.humidity_pct (meanFloat (yesterday.map Reading.humidity_pct)))]

/-! ### Helper lemmas about the table operations -/

theorem length_applyAt (cols : List String) (c : String) (f : Cell → Cell) (row : List Cell) :
    (applyAt cols c f row).length = cols.length := by
  simp [applyAt]

theorem getD_applyAt (cols : List String) (c : String) (f : Cell → Cell) (row : List Cell)
    {i : ℕ} (hi : i < cols.length) :
    (applyAt cols c f row).getD i Cell.null =
      if cols.getD i "" = c then f (row.getD i Cell.null) else row.getD i Cell.null := by
  simp [applyAt, List.getD_eq_getElem?_getD, List.getElem?_map, List.getElem?_range, hi]

theorem getCellIn_applyAt_of_mem {cols : List String} {c' : String} (hc' : c' ∈ cols)
    (c : String) (f : Cell → Cell) (row : List Cell) :
    getCellIn cols (applyAt cols c f row) c' =
      if c' = c then f (getCellIn cols row c') else getCellIn cols row c' := by
  have hidx : cols.indexOf c' < cols.length := List.indexOf_lt_length.mpr hc'
  have hname : cols.getD (cols.indexOf c') "" = c' := by
    rw [List.getD_eq_getElem _ _ hidx, List.getElem_indexOf hidx]
  unfold getCellIn
  rw [getD_applyAt _ _ _ _ hidx, hname]

theorem getCellIn_applyAt_of_not_mem {cols : List String} {c' : String} (hc' : c' ∉ cols)
    (c : String) (f : Cell → Cell) (row : List Cell) :
    getCellIn cols (applyAt cols c f row) c' = Cell.null := by
  have hidx : cols.indexOf c' = cols.length := List.indexOf_eq_length.mpr hc'
  unfold getCellIn
  rw [hidx]
  exact List.getD_eq_default _ _ (le_of_eq (length_applyAt cols c f row))

theorem mapCol_cols (t : Table) (c : String) (f : Cell → Cell) :
    (mapCol t c f).cols = t.cols := rfl

theorem mem_rows_mapCol {t : Table} {c : String} {f : Cell → Cell} {row : List Cell} :
    row ∈ (mapCol t c f).rows ↔ ∃ r0 ∈ t.rows, applyAt t.cols c f r0 = row := by
  simp [mapCol]

theorem sortByTime_cols (t : Table) : (sortByTime t).cols = t.cols := rfl

theorem mem_rows_sortByTime {t : Table} {row : List Cell} :
    row ∈ (sortByTime t).rows ↔ row ∈ t.rows :=
  (List.perm_insertionSort (fun a b => rowLe t.cols a b = true) t.rows).mem_iff

theorem optLe_trans : ∀ a b c : Option ℤ, optLe a b → optLe b c → optLe a c := by
  intro a b c hab hbc
  cases a <;> cases b <;> cases c <;> simp_all [optLe] <;> omega

theorem optLe_total : ∀ a b : Option ℤ, optLe a b || optLe b a := by
  intro a b
  cases a <;> cases b <;> simp [optLe] <;> omega

theorem rowLe_trans (cols : List String) : ∀ a b c : List Cell,
    rowLe cols a b → rowLe cols b c → rowLe cols a c := by
  intro a b c hab hbc
  exact optLe_trans _ _ _ hab hbc

theorem rowLe_total (cols : List String) : ∀ a b : List Cell,
    rowLe cols a b || rowLe cols b a := by
  intro a b
  exact optLe_total _ _

theorem sortByTime_pairwise (t : Table) :
    (sortByTime t).rows.Pairwise (fun a b => rowLe t.cols a b = true) := by
  haveI : IsTrans (List Cell) (fun a b => rowLe t.cols a b = true) :=
    ⟨fun a b c => rowLe_trans t.cols a b c⟩
  haveI : IsTotal (List Cell) (fun a b => rowLe t.cols a b = true) :=
    ⟨fun a b => by
      have h := rowLe_total t.cols a b
      rcases Bool.or_eq_true_iff.mp h with h1 | h1
      · exact Or.inl h1
      · exact Or.inr h1⟩
  exact List.sorted_insertionSort _ t.rows

/-! ### Helper lemmas about schema completion -/

theorem addMissingCol_mem_cols {t : Table} {c : String} (c0 : String) (hc : c ∈ t.cols) :
    c ∈ (addMissingCol t c0).cols := by
  unfold addMissingCol
  split
  · exact hc
  · exact List.mem_append_left _ hc

theorem addMissingCol_aligned {t : Table} (c0 : String) (h : Aligned t) :
    Aligned (addMissingCol t c0) := by
  unfold addMissingCol
  split
  · exact h
  · intro row hrow
    simp only [List.mem_map] at hrow
    obtain ⟨r, hr, rfl⟩ := hrow
    simp [h r hr]

theorem foldl_addMissing_aligned (cs : List String) (t : Table) (h : Aligned t) :
    Aligned (cs.foldl addMissingCol t) := by
  induction cs generalizing t with
  | nil => exact h
  | cons c0 rest ih => exact ih _ (addMissingCol_aligned c0 h)

theorem mem_cols_foldl_addMissing_of_mem (cs : List String) (t : Table) {c : String}
    (hc : c ∈ t.cols) : c ∈ (cs.foldl addMissingCol t).cols := by
  induction cs generalizing t with
  | nil => exact hc
  | cons c0 rest ih => exact ih _ (addMissingCol_mem_cols c0 hc)

theorem mem_cols_foldl_addMissing (cs : List String) (t : Table) {c : String}
    (hc : c ∈ cs) : c ∈ (cs.foldl addMissingCol t).cols := by
  induction cs generalizing t with
  | nil => cases hc
  | cons c0 rest ih =>
    rcases List.mem_cons.mp hc with h | h
    · subst h
      rw [List.foldl_cons]
      apply mem_cols_foldl_addMissing_of_mem
      unfold addMissingCol
      split
      next hmem => exact hmem
      next => simp
    · exact ih _ h

theorem addMissingCol_cell_of_mem {t : Table} {c : String} (hwf : Aligned t)
    (hc : c ∈ t.cols) (c0 : String) :
    ∀ row ∈ (addMissingCol t c0).rows, ∃ r0 ∈ t.rows,
      getCellIn (addMissingCol t c0).cols row c = getCellIn t.cols r0 c := by
  unfold addMissingCol
  split
  · intro row h
    exact ⟨row, h, rfl⟩
  · intro row h
    simp only [List.mem_map] at h
    obtain ⟨r, hr, rfl⟩ := h
    refine ⟨r, hr, ?_⟩
    unfold getCellIn
    simp only
    rw [List.indexOf_append_of_mem hc]
    have hidx : t.cols.indexOf c < t.cols.length := List.indexOf_lt_length.mpr hc
    rw [List.getD_append]
    rw [hwf r hr]
    exact hidx

theorem foldl_addMissing_null (cs : List String) (t : Table) (c : String)
    (hwf : Aligned t) (hc : c ∈ t.cols)
    (hnull : ∀ row ∈ t.rows, getCellIn t.cols row c = Cell.null) :
    ∀ row ∈ (cs.foldl addMissingCol t).rows,
      getCellIn (cs.foldl addMissingCol t).cols row c = Cell.null := by
  induction cs generalizing t with
  | nil => exact hnull
  | cons c0 rest ih =>
    refine ih (addMissingCol t c0) (addMissingCol_aligned c0 hwf)
      (addMissingCol_mem_cols c0 hc) ?_
    intro row hrow
    obtain ⟨r0, hr0, heq⟩ := addMissingCol_cell_of_mem hwf hc c0 row hrow
    rw [heq]
    exact hnull r0 hr0

theorem addMissingCol_new_null {t : Table} {c : String} (hwf : Aligned t) (hc : c ∉ t.cols) :
    ∀ row ∈ (addMissingCol t c).rows,
      getCellIn (addMissingCol t c).cols row c = Cell.null := by
  unfold addMissingCol
  rw [if_neg hc]
  intro row h
  simp only [List.mem_map] at h
  obtain ⟨r, hr, rfl⟩ := h
  unfold getCellIn
  simp only
  rw [List.indexOf_append_of_not_mem hc]
  simp only [List.indexOf_cons_self, Nat.add_zero]
  have hlen := hwf r hr
  rw [List.getD_append_right _ _ _ _ (le_of_eq hlen), hlen, Nat.sub_self]
  rfl

theorem foldl_addMissing_inject (cs : List String) (t : Table) (c : String)
    (hwf : Aligned t) (hcs : c ∈ cs) (hc : c ∉ t.cols) :
    ∀ row ∈ (cs.foldl addMissingCol t).rows,
      getCellIn (cs.foldl addMissingCol t).cols row c = Cell.null := by
  induction cs generalizing t with
  | nil => cases hcs
  | cons c0 rest ih =>
    by_cases hcc : c = c0
    · subst hcc
      have hmem : c ∈ (addMissingCol t c).cols := by
        unfold addMissingCol
        rw [if_neg hc]
        simp
      exact foldl_addMissing_null rest _ c (addMissingCol_aligned c hwf) hmem
        (addMissingCol_new_null hwf hc)
    · have hcrest : c ∈ rest := by
        rcases List.mem_cons.mp hcs with h | h
        · exact absurd h hcc
        · exact h
      have hc1 : c ∉ (addMissingCol t c0).cols := by
        unfold addMissingCol
        split
        · exact hc
        · simp only [List.mem_append, List.mem_singleton]
          rintro (h | h)
          · exact hc h
          · exact hcc h
      exact ih _ (addMissingCol_aligned c0 hwf) hcrest hc1

/-! ### Helper lemmas about the coercion passes -/

theorem coerceNumerics_eq (t : Table) :
    coerceNumerics t =
      mapCol (mapCol (mapCol t "temp_c" coerceNumCell) "humidity_pct" coerceNumCell)
        "co2_ppm" coerceNumCell := rfl

theorem coerceNumerics_cols (t : Table) : (coerceNumerics t).cols = t.cols := rfl

theorem coerceTime_cols (t : Table) : (coerceTime t).cols = t.cols := by
  unfold coerceTime
  split <;> rfl

theorem normalizeCore_cols (t : Table) :
    (normalizeCore t).cols = (ensureCols t).cols := by
  unfold normalizeCore
  rw [sortByTime_cols, coerceTime_cols, coerceNumerics_cols]

theorem coerceNumCell_idem (x : Cell) :
    coerceNumCell (coerceNumCell x) = coerceNumCell x := by
  cases x with
  | str s =>
    cases h : parseNumStr s <;> simp [coerceNumCell, h]
  | num q => rfl
  | time t => rfl
  | null => rfl

theorem coerceTimeCell_idem (x : Cell) :
    coerceTimeCell (coerceTimeCell x) = coerceTimeCell x := by
  cases x with
  | str s =>
    cases h : parseTimeStr s <;> simp [coerceTimeCell, h]
  | num q => rfl
  | time t => rfl
  | null => rfl

/-- Every row of the coerced table is the image of an original row under the
four per-column coercion passes. -/
theorem mem_rows_normalized (t : Table) {row : List Cell}
    (hrow : row ∈ (coerceTime (coerceNumerics t)).rows) (htime : "time" ∈ t.cols) :
    ∃ r0 ∈ t.rows,
      row = applyAt t.cols "time" coerceTimeCell (applyAt t.cols "co2_ppm" coerceNumCell
        (applyAt t.cols "humidity_pct" coerceNumCell
          (applyAt t.cols "temp_c" coerceNumCell r0))) := by
  have hct : coerceTime (coerceNumerics t) = mapCol (coerceNumerics t) "time" coerceTimeCell := by
    unfold coerceTime
    rw [if_pos]
    exact htime
  rw [hct, coerceNumerics_eq] at hrow
  rw [mem_rows_mapCol] at hrow
  obtain ⟨r3, hr3, he3⟩ := hrow
  rw [mem_rows_mapCol] at hr3
  obtain ⟨r2, hr2, he2⟩ := hr3
  rw [mem_rows_mapCol] at hr2
  obtain ⟨r1, hr1, he1⟩ := hr2
  rw [mem_rows_mapCol] at hr1
  obtain ⟨r0, hr0, he0⟩ := hr1
  refine ⟨r0, hr0, ?_⟩
  rw [← he3, ← he2, ← he1, ← he0]
  rfl

/-- Cell contents of a fully coerced row, by column kind. -/
theorem getCellIn_normalized_row {C : List String} (r0 : List Cell)
    (hc : ∀ c ∈ requiredCols, c ∈ C) :
    (∀ c ∈ numericCols,
      getCellIn C (applyAt C "time" coerceTimeCell (applyAt C "co2_ppm" coerceNumCell
        (applyAt C "humidity_pct" coerceNumCell (applyAt C "temp_c" coerceNumCell r0)))) c =
      coerceNumCell (getCellIn C r0 c)) ∧
    (getCellIn C (applyAt C "time" coerceTimeCell (applyAt C "co2_ppm" coerceNumCell
        (applyAt C "humidity_pct" coerceNumCell (applyAt C "temp_c" coerceNumCell r0)))) "time" =
      coerceTimeCell (getCellIn C r0 "time")) ∧
    (∀ c ∈ C, c ∉ numericCols → c ≠ "time" →
      getCellIn C (applyAt C "time" coerceTimeCell (applyAt C "co2_ppm" coerceNumCell
        (applyAt C "humidity_pct" coerceNumCell (applyAt C "temp_c" coerceNumCell r0)))) c =
      getCellIn C r0 c) := by
  have htm : "time" ∈ C := hc "time" (by decide)
  have htc : "temp_c" ∈ C := hc "temp_c" (by decide)
  have hhu : "humidity_pct" ∈ C := hc "humidity_pct" (by decide)
  have hco : "co2_ppm" ∈ C := hc "co2_ppm" (by decide)
  refine ⟨?_, ?_, ?_⟩
  · intro c hcn
    simp only [numericCols, List.mem_cons, List.mem_singleton, List.not_mem_nil, or_false]
      at hcn
    rcases hcn with rfl | rfl | rfl
    · rw [getCellIn_applyAt_of_mem htc, if_neg (by decide),
        getCellIn_applyAt_of_mem htc, if_neg (by decide),
        getCellIn_applyAt_of_mem htc, if_neg (by decide),
        getCellIn_applyAt_of_mem htc, if_pos rfl]
    · rw [getCellIn_applyAt_of_mem hhu, if_neg (by decide),
        getCellIn_applyAt_of_mem hhu, if_neg (by decide),
        getCellIn_applyAt_of_mem hhu, if_pos rfl,
        getCellIn_applyAt_of_mem hhu, if_neg (by decide)]
    · rw [getCellIn_applyAt_of_mem hco, if_neg (by decide),
        getCellIn_applyAt_of_mem hco, if_pos rfl,
        getCellIn_applyAt_of_mem hco, if_neg (by decide),
        getCellIn_applyAt_of_mem hco, if_neg (by decide)]
  · rw [getCellIn_applyAt_of_mem htm, if_pos rfl,
      getCellIn_applyAt_of_mem htm, if_neg (by decide),
      getCellIn_applyAt_of_mem htm, if_neg (by decide),
      getCellIn_applyAt_of_mem htm, if_neg (by decide)]
  · intro c hcC hcn hct
    have h1 : ¬c = "temp_c" := by
      intro h; exact hcn (by rw [h]; decide)
    have h2 : ¬c = "humidity_pct" := by
      intro h; exact hcn (by rw [h]; decide)
    have h3 : ¬c = "co2_ppm" := by
      intro h; exact hcn (by rw [h]; decide)
    rw [getCellIn_applyAt_of_mem hcC, if_neg hct,
      getCellIn_applyAt_of_mem hcC, if_neg h3,
      getCellIn_applyAt_of_mem hcC, if_neg h2,
      getCellIn_applyAt_of_mem hcC, if_neg h1]

theorem ensureCols_complete (t : Table) : ∀ c ∈ requiredCols, c ∈ (ensureCols t).cols :=
  fun _ hc => mem_cols_foldl_addMissing requiredCols t hc

theorem ensureCols_inject (t : Table) (c : String) (hwf : Aligned t)
    (hc : c ∈ requiredCols) (hnot : c ∉ t.cols) :
    ∀ row ∈ (ensureCols t).rows, getCellIn (ensureCols t).cols row c = Cell.null :=
  foldl_addMissing_inject requiredCols t c hwf hc hnot

theorem mem_rows_normalizeCore {t : Table} {row : List Cell} :
    row ∈ (normalizeCore t).rows ↔
      row ∈ (coerceTime (coerceNumerics (ensureCols t))).rows := by
  unfold normalizeCore
  exact mem_rows_sortByTime

theorem pairwise_le_getLast (l : List ℤ) (hl : l.Pairwise (· ≤ ·)) :
    ∀ x ∈ l, ∀ y, l.getLast? = some y → x ≤ y := by
  induction l with
  | nil => intro x hx; cases hx
  | cons a rest ih =>
    intro x hx y hy
    cases rest with
    | nil =>
      simp only [List.mem_singleton] at hx
      simp only [List.getLast?_singleton, Option.some.injEq] at hy
      subst hx
      subst hy
      exact le_refl x
    | cons b rest2 =>
      rw [List.getLast?_cons_cons] at hy
      rcases List.mem_cons.mp hx with rfl | hx2
      · exact (List.pairwise_cons.mp hl).1 y (List.mem_of_getLast?_eq_some hy)
      · exact ih (List.pairwise_cons.mp hl).2 x hx2 y hy

/-! ### Claims about the evaluators and the dashboard aggregation -/

/-- C2: for every latest normalized Reading evaluated for alerts, a HighCO2
event is emitted iff `co2_ppm` is present and strictly above 1000, carrying
the integer-truncated value, and a HighTemp event is emitted iff `temp_c`
is present and strictly above 25, carrying the raw value; the rules are
independent and missing values never fire. -/
theorem C2_alert_threshold_rules (loc booth : String) (r : Reading) :
    (∀ v, r.co2_ppm = some v → 1000 < v →
      AlertEvent.highCO2 loc booth (pyInt v) ∈ alertEventsFor loc booth r) ∧
    (∀ z, AlertEvent.highCO2 loc booth z ∈ alertEventsFor loc booth r →
      ∃ v, r.co2_ppm = some v ∧ 1000 < v ∧ z = pyInt v) ∧
    (∀ v, r.temp_c = some v → 25 < v →
      AlertEvent.highTemp loc booth v ∈ alertEventsFor loc booth r) ∧
    (∀ q, AlertEvent.highTemp loc booth q ∈ alertEventsFor loc booth r →
      r.temp_c = some q ∧ 25 < q) := by
  refine ⟨?_, ?_, ?_, ?_⟩
  · intro v hv hgt
    simp [alertEventsFor, hv, if_pos hgt]
  · intro z hz
    simp only [alertEventsFor, List.mem_append] at hz
    rcases hz with h | h
    · cases hco : r.co2_ppm with
      | none => rw [hco] at h; simp at h
      | some v =>
        rw [hco] at h
        by_cases hgt : (1000 : ℚ) < v
        · simp [hgt] at h
          subst h
          exact ⟨v, rfl, hgt, rfl⟩
        · simp [hgt] at h
    · cases htc : r.temp_c with
      | none => rw [htc] at h; simp at h
      | some v =>
        rw [htc] at h
        by_cases hgt : (25 : ℚ) < v
        · simp [hgt] at h
        · simp [hgt] at h
  · intro v hv hgt
    simp [alertEventsFor, hv, if_pos hgt]
  · intro q hq
    simp only [alertEventsFor, List.mem_append] at hq
    rcases hq with h | h
    · cases hco : r.co2_ppm with
      | none => rw [hco] at h; simp at h
      | some v =>
        rw [hco] at h
        by_cases hgt : (1000 : ℚ) < v
        · simp [hgt] at h
        · simp [hgt] at h
    · cases htc : r.temp_c with
      | none => rw [htc] at h; simp at h
      | some v =>
        rw [htc] at h
        by_cases hgt : (25 : ℚ) < v
        · simp [hgt] at h
          subst h
          exact ⟨rfl, hgt⟩
        · simp [hgt] at h

/-- Witness for C2 at a concrete reading with co2_ppm 1001 and temp_c 26:
both alert kinds fire for the same reading. -/
theorem C2_alert_threshold_rules_witness :
    AlertEvent.highCO2 "L" "B" (pyInt 1001) ∈
      alertEventsFor "L" "B" ⟨none, some 26, none, some 1001, none⟩ ∧
    AlertEvent.highTemp "L" "B" 26 ∈
      alertEventsFor "L" "B" ⟨none, some 26, none, some 1001, none⟩ :=
  ⟨(C2_alert_threshold_rules "L" "B" ⟨none, some 26, none, some 1001, none⟩).1
      1001 rfl (by decide),
   (C2_alert_threshold_rules "L" "B" ⟨none, some 26, none, some 1001, none⟩).2.2.1
      26 rfl (by decide)⟩

/-- C3: with no reading or a missing latest time the liveness evaluator
yields `{last_seen: Never, state: Offline}`; otherwise it is Offline exactly
when `now - latest.time` strictly exceeds one hour (3600 s is Online, 3601 s
is Offline), with `last_seen` rendered as `YYYY-MM-DD HH:MM`. -/
theorem C3_liveness_status (loc booth : String) (latest : Option Reading) (now : ℤ) :
    (latest.bind Reading.time = none →
      systemStatusEntry loc booth latest now = ⟨loc, booth, "Never", "Offline"⟩) ∧
    (∀ t, latest.bind Reading.time = some t →
      systemStatusEntry loc booth latest now =
        ⟨loc, booth, formatTimestamp t, if 3600 < now - t then "Offline" else "Online"⟩) ∧
    (∀ t, latest.bind Reading.time = some t → now - t = 3600 →
      (systemStatusEntry loc booth latest now).status = "Online") ∧
    (∀ t, latest.bind Reading.time = some t → now - t = 3601 →
      (systemStatusEntry loc booth latest now).status = "Offline") := by
  refine ⟨?_, ?_, ?_, ?_⟩
  · intro h; simp [systemStatusEntry, h]
  · intro t h; simp [systemStatusEntry, h]
  · intro t h hage
    simp [systemStatusEntry, h, hage]
  · intro t h hage
    simp [systemStatusEntry, h, hage]

/-- Witness for C3: a reading seen at the epoch, evaluated exactly one hour
later, is Online with its timestamp formatted as `1970-01-01 00:00`. -/
theorem C3_liveness_status_witness :
    systemStatusEntry "L" "B" (some ⟨some 0, none, none, none, none⟩) 3600 =
      ⟨"L", "B", "1970-01-01 00:00", "Online"⟩ := by
  have h := (C3_liveness_status "L" "B" (some ⟨some 0, none, none, none, none⟩) 3600).2.1 0 rfl
  exact h.trans (by rfl)

/-- C1 fails on the code: in the `/dashboard` route the alert-log and
system-status blocks are dedented out of the booth loop, so they run once on
leftover loop variables.  With booths A (one reading, co2 2000) and B (fetch
absent) under location L, the lone emitted alert is attributed to booth B —
built from booth A's leftover reading — no alert event is emitted for A, and
only one status entry is produced, refuting per-iteration computation. -/
theorem C1_cross_iteration_leak :
    dashboardEval ["L"] (fun _ => ["A", "B"])
      (fun loc b =>
        if loc = "L" ∧ b = "A" then
          some [⟨some 1000, some 22, some 50, some 2000, some "on"⟩]
        else none) 2000 =
    Except.ok
      ⟨[("L", 1)], [AlertEvent.highCO2 "L" "B" 2000],
        [⟨"L", "B", "1970-01-01 00:16", "Online"⟩]⟩ := by
  rfl

/-- C5 fails on the code: when every booth's fetch returns absent, the
variable `latest` is never assigned and line 169 of the dashboard route
raises a `NameError` instead of treating the no-data state as first-class. -/
theorem C5_all_absent_raises :
    dashboardEval ["L"] (fun _ => ["A"]) (fun _ _ => none) 0 =
      Except.error "NameError" := by
  rfl

/-- C4 fails on the code: with one prior-day reading (temp 20, humidity 50)
and a latest reading whose temp_c is missing (`NaN`, which passes the
`is not None` guard), the historical context contains the `temp_change` key
with a NaN value instead of omitting it; the humidity delta is computed
normally. -/
theorem C4_nan_delta_not_omitted :
    historicalContext
      [⟨some 0, some 20, some 50, none, none⟩,
       ⟨some 200000, none, some 55, none, none⟩] 259200 =
    [("temp_change", none), ("hum_change", some 5)] := by
  simp [historicalContext, meanFloat, subFloat]
  norm_num

/-- C8: for every (location, booth) pair, fetch returns absent — and never
raises, `load_sensor_data` being total — whenever the local file does not
exist, the local file fails to parse, the remote worksheet is uninitialized,
or the remote fetch raises. -/
theorem C8_fetch_failures_absent (w : World) (loc booth : String) :
    (¬(loc = "Adelaide" ∧ stripSpaces booth = "BoothA") →
      w.localFiles ("data/" ++ stripSpaces loc ++ "_" ++ stripSpaces booth ++ ".csv") = none →
      load_sensor_data w loc booth = none) ∧
    (∀ e, ¬(loc = "Adelaide" ∧ stripSpaces booth = "BoothA") →
      w.localFiles ("data/" ++ stripSpaces loc ++ "_" ++ stripSpaces booth ++ ".csv") =
        some (Except.error e) →
      load_sensor_data w loc booth = none) ∧
    ((loc = "Adelaide" ∧ stripSpaces booth = "BoothA") → w.sheetAvailable = false →
      load_sensor_data w loc booth = none) ∧
    (∀ e, (loc = "Adelaide" ∧ stripSpaces booth = "BoothA") →
      w.sheetRecords = Except.error e →
      load_sensor_data w loc booth = none) := by
  refine ⟨?_, ?_, ?_, ?_⟩
  · intro hbr hfile
    simp [load_sensor_data, hbr, hfile]
  · intro e hbr hfile
    simp [load_sensor_data, hbr, hfile]
  · intro hbr hsheet
    simp [load_sensor_data, hbr, get_data_from_sheet, hsheet]
  · intro e hbr hsheet
    simp only [load_sensor_data, if_pos hbr, get_data_from_sheet, hsheet]
    cases w.sheetAvailable <;> simp

/-- Witness for C8: a world with no worksheet handle and no local files
yields absent both for an ordinary booth and for the remote booth. -/
theorem C8_fetch_failures_absent_witness :
    load_sensor_data ⟨false, Except.ok ⟨[], []⟩, fun _ => none⟩ "X" "Y" = none ∧
    load_sensor_data ⟨false, Except.ok ⟨[], []⟩, fun _ => none⟩ "Adelaide" "Booth A" = none :=
  ⟨(C8_fetch_failures_absent ⟨false, Except.ok ⟨[], []⟩, fun _ => none⟩ "X" "Y").1
      (by decide) rfl,
   (C8_fetch_failures_absent ⟨false, Except.ok ⟨[], []⟩, fun _ => none⟩ "Adelaide" "Booth A").2.2.1
      (by decide) rfl⟩

/-- C10: `load_sensor_data` depends on the booth name only through its
space-stripped form, and the distinguished (Adelaide, BoothA) pair is
matched after space removal, so ('Adelaide', 'Booth A') routes to the
remote sheet source rather than a local file. -/
theorem C10_booth_name_space_stripped (w : World) (loc b1 b2 : String)
    (h : stripSpaces b1 = stripSpaces b2) :
    load_sensor_data w loc b1 = load_sensor_data w loc b2 ∧
    load_sensor_data w "Adelaide" "Booth A" =
      (match get_data_from_sheet w with
       | some t => if t.rows.isEmpty then none else some (normalizeCore t)
       | none => none) := by
  constructor
  · simp only [load_sensor_data, h]
  · simp only [load_sensor_data]
    rfl

/-- Witness for C10: 'Booth A' and 'BoothA' fetch identically under
Adelaide. -/
theorem C10_booth_name_space_stripped_witness :
    load_sensor_data ⟨false, Except.ok ⟨[], []⟩, fun _ => none⟩ "Adelaide" "Booth A" =
      load_sensor_data ⟨false, Except.ok ⟨[], []⟩, fun _ => none⟩ "Adelaide" "BoothA" :=
  (C10_booth_name_space_stripped ⟨false, Except.ok ⟨[], []⟩, fun _ => none⟩
    "Adelaide" "Booth A" "BoothA" (by rfl)).1

/-- C6: for every well-formed raw frame of any shape, normalization is a
total function (it never raises); every required field absent from the raw
frame is injected as missing for all records; and every numeric-column cell
of the output is a parsed number or the missing sentinel, any value that
fails numeric parsing (the empty string included) having become missing. -/
theorem C6_normalize_schema_total (t : Table) (hwf : Aligned t) :
    (∀ c ∈ requiredCols, c ∈ (normalizeCore t).cols) ∧
    (∀ c ∈ requiredCols, c ∉ t.cols →
      ∀ row ∈ (normalizeCore t).rows,
        getCellIn (normalizeCore t).cols row c = Cell.null) ∧
    (∀ c ∈ numericCols, ∀ row ∈ (normalizeCore t).rows,
      getCellIn (normalizeCore t).cols row c = Cell.null ∨
      ∃ q, getCellIn (normalizeCore t).cols row c = Cell.num q) ∧
    (∀ s, parseNumStr s = none → coerceNumCell (Cell.str s) = Cell.null) := by
  have hreq : ∀ c ∈ requiredCols, c ∈ (ensureCols t).cols := ensureCols_complete t
  have hcols := normalizeCore_cols t
  have htime : "time" ∈ (ensureCols t).cols := hreq _ (by decide)
  refine ⟨?_, ?_, ?_, ?_⟩
  · intro c hc
    rw [hcols]
    exact hreq c hc
  · intro c hc hnot row hrow
    rw [mem_rows_normalizeCore] at hrow
    obtain ⟨r0, hr0, rfl⟩ := mem_rows_normalized (ensureCols t) hrow htime
    have hnull := ensureCols_inject t c hwf hc hnot r0 hr0
    have hcell := getCellIn_normalized_row r0 hreq
    rw [hcols]
    simp only [requiredCols, List.mem_cons, List.mem_singleton, List.not_mem_nil, or_false]
      at hc
    rcases hc with rfl | rfl | rfl | rfl | rfl
    · rw [hcell.2.1, hnull]; rfl
    · rw [hcell.1 _ (by decide), hnull]; rfl
    · rw [hcell.1 _ (by decide), hnull]; rfl
    · rw [hcell.1 _ (by decide), hnull]; rfl
    · rw [hcell.2.2 _ (hreq _ (by decide)) (by decide) (by decide), hnull]
  · intro c hc row hrow
    rw [mem_rows_normalizeCore] at hrow
    obtain ⟨r0, hr0, rfl⟩ := mem_rows_normalized (ensureCols t) hrow htime
    have hcell := getCellIn_normalized_row r0 hreq
    rw [hcols, hcell.1 c hc]
    cases getCellIn (ensureCols t).cols r0 c with
    | str s =>
      cases h : parseNumStr s with
      | none => left; simp [coerceNumCell, h]
      | some q => right; exact ⟨q, by simp [coerceNumCell, h]⟩
    | num q => right; exact ⟨q, rfl⟩
    | time x => left; rfl
    | null => left; rfl
  · intro s hs
    simp [coerceNumCell, hs]

/-- Witness for C6 at a one-column, one-row frame: the missing `temp_c`
column is injected by normalization. -/
theorem C6_normalize_schema_total_witness :
    "temp_c" ∈ (normalizeCore ⟨["co2_ppm"], [[Cell.str "abc"]]⟩).cols :=
  (C6_normalize_schema_total ⟨["co2_ppm"], [[Cell.str "abc"]]⟩
      (fun row hrow => by
        rw [List.mem_singleton] at hrow
        rw [hrow]
        rfl)).1
    "temp_c" (by decide)

/-- C7: every normalized frame is sorted non-decreasing by time over the
records whose time is present, so the last record with present time carries
the maximal (latest) timestamp. -/
theorem C7_time_sorted (t : Table) :
    (presentTimes (normalizeCore t)).Pairwise (· ≤ ·) ∧
    (∀ x ∈ presentTimes (normalizeCore t), ∀ y,
      (presentTimes (normalizeCore t)).getLast? = some y → x ≤ y) := by
  have hp : (normalizeCore t).rows.Pairwise
      (fun a b => rowLe (coerceTime (coerceNumerics (ensureCols t))).cols a b = true) :=
    sortByTime_pairwise _
  have hpw : (presentTimes (normalizeCore t)).Pairwise (· ≤ ·) := by
    unfold presentTimes
    refine List.Pairwise.filterMap _ ?_ hp
    intro a b hab x hx y hy
    rw [Option.mem_def] at hx hy
    have hab2 : optLe (timeKey (normalizeCore t).cols a) (timeKey (normalizeCore t).cols b) =
        true := hab
    rw [hx, hy] at hab2
    simpa [optLe] using hab2
  exact ⟨hpw, pairwise_le_getLast _ hpw⟩

/-- Witness for C7 at a concrete two-row frame supplied out of time order:
the first present time of the normalized frame is bounded by the last. -/
theorem C7_time_sorted_witness :
    (presentTimes (normalizeCore
        ⟨["time"], [[Cell.str "2024-01-02 03:04:05"], [Cell.str "2024-01-01 08:00:00"]]⟩)).getD 0 0 ≤
    (presentTimes (normalizeCore
        ⟨["time"], [[Cell.str "2024-01-02 03:04:05"], [Cell.str "2024-01-01 08:00:00"]]⟩)).getD 1 0 :=
  (C7_time_sorted
      ⟨["time"], [[Cell.str "2024-01-02 03:04:05"], [Cell.str "2024-01-01 08:00:00"]]⟩).2
    _ (by decide) _ (by decide)

/-- C9 fails on the code: `df.sort_values(by='time')` uses the pandas
default `kind='quicksort'`, which is documented as unstable, so the sort
contract — a time-sorted permutation of the rows — does not determine the
order of rows sharing a timestamp.  Concretely, for two rows with equal
time and different payloads, both orders are time-sorted permutations of
one another yet differ as sequences, so re-sorting an already-normalized
frame with tied timestamps is not forced to reproduce the identical
sequence (the schema-completion and per-cell coercion steps themselves are
idempotent, see `coerceNumCell_idem` and `coerceTimeCell_idem`; only the
tie order is undetermined). -/
theorem C9_tie_order_not_determined :
    List.Pairwise (fun a b => rowLe ["time", "temp_c"] a b = true)
      [[Cell.time 0, Cell.num 1], [Cell.time 0, Cell.num 2]] ∧
    List.Pairwise (fun a b => rowLe ["time", "temp_c"] a b = true)
      [[Cell.time 0, Cell.num 2], [Cell.time 0, Cell.num 1]] ∧
    [[Cell.time 0, Cell.num 2], [Cell.time 0, Cell.num 1]].Perm
      [[Cell.time 0, Cell.num 1], [Cell.time 0, Cell.num 2]] ∧
    [[Cell.time 0, Cell.num 2], [Cell.time 0, Cell.num 1]] ≠
      [[Cell.time 0, Cell.num 1], [Cell.time 0, Cell.num 2]] := by
  refine ⟨?_, ?_, ?_, ?_⟩
  · simp [rowLe, timeKey, getCellIn, optLe, timeKeyCell]
  · simp [rowLe, timeKey, getCellIn, optLe, timeKeyCell]
  · exact List.Perm.swap _ _ _
  · simp

end Dashboard
